import Mathlib

/-
  Shallow embedding of the Module Instance Lifecycle Engine of
  src/src/wavm/WAVMWasmModule.cpp.  Pure functions model the
  engine's operations; backend effects (memory growth results,
  instance export search, invocation outcomes) are passed in as
  explicit oracle arguments.  Machine integers are modelled as Nat
  with explicit `% 2^32` / `% 2^64` where the source performs
  unsigned arithmetic that can wrap.
-/

namespace FaasmWavm

/-! ## Constants -/

/-- Bytes per WebAssembly page (WASM_BYTES_PER_PAGE in the source). -/
def WASM_BYTES_PER_PAGE : Nat := 65536

/-- Handle reserved for the main module in dlopen-style loading
(MAIN_MODULE_DYNLINK_HANDLE in the source headers; value 1, handle 0
is the dlopen failure value and dynamic handles start at 2). -/
def MAIN_MODULE_DYNLINK_HANDLE : Nat := 1

/-- OpenMP worker stack size constant STACK_SIZE checked against the
first mutable global of a fresh thread context before it is
overwritten. -/
def STACK_SIZE : Nat := 4194304

/-! ## Association-list maps

`std::unordered_map` / `std::map` in the source are modelled as
association lists.  `flook` is lookup; `finsert` is `map.insert`,
which in C++ does NOT overwrite an existing key. -/

/-- Lookup in an association list, mirroring `map.count` / `map[k]` reads. -/
def flook {α : Type} (k : String) : List (String × α) → Option α
  | [] => none
  | (k', v) :: rest => if k' = k then some v else flook k rest

/-- Insert-if-absent, mirroring C++ `map.insert({k, v})` which keeps the
existing mapping when the key is already present. -/
def finsert {α : Type} (k : String) (v : α) (m : List (String × α)) :
    List (String × α) :=
  match flook k m with
  | some _ => m
  | none => (k, v) :: m

/-! ## Memory model

The default linear memory is modelled as a current page count, the
maximum page count from the memory type, and the byte contents.
`Runtime::growMemory` is a backend call whose outcome is an oracle. -/

/-- Outcome of the backend `Runtime::growMemory` call
(WAVM `Runtime::GrowResult`). -/
inductive GrowOutcome
  | success
  | outOfMemory
  | outOfMaxSize
  | outOfQuota
  | otherFailure
deriving DecidableEq, Repr

/-- Error kinds raised by `mmapPages`, one per throw site in the source:
`zeroPages` ("Requesting mapping of zero pages"), `exceedsMax`
("Mmap exceeding max", the pre-check against `memoryType.max`), and the
four backend `GrowResult` failures. -/
inductive MemErr
  | zeroPages
  | exceedsMax
  | outOfMemory
  | outOfMaxSize
  | outOfQuota
  | unknown
deriving DecidableEq, Repr

/-- The four memory error kinds of the specification taxonomy:
OutOfMemory (backend commit failure), OutOfMaxSize (exceeds
`memoryType.max`, covering both the pre-check and the backend result),
OutOfQuota, and Unknown.  The zero-pages throw is not among them. -/
def MemErr.isOneOfFourKinds : MemErr → Bool
  | .zeroPages => false
  | _ => true

/-- The default wasm memory: current page count, `memoryType.max`
page limit, and byte contents. -/
structure WasmMemory where
  pages : Nat
  maxPages : Nat
  contents : List Nat
deriving DecidableEq, Repr

/-- WAVMWasmModule::mmapPages (source lines 1002-1063).  `pages` is the
U32 argument.  Throw sites in source order: zero-pages check, the
`newPageCount > maxSize` pre-check, then the backend grow call whose
failure kinds map one-to-one onto the four catch branches.  On success
the memory has grown by exactly `pages` pages (zero-filled, per wasm
semantics) and the returned offset is the previous page count times the
page size, cast to U32. -/
def mmapPages (st : WasmMemory) (pages : Nat) (grow : GrowOutcome) :
    Except MemErr (WasmMemory × Nat) :=
  if pages = 0 then .error .zeroPages
  else
    let newPageCount := st.pages + pages
    if newPageCount > st.maxPages then .error .exceedsMax
    else
      match grow with
      | .success =>
          .ok ({ st with
                  pages := newPageCount,
                  contents :=
                    st.contents ++ List.replicate (pages * WASM_BYTES_PER_PAGE) 0 },
                st.pages * WASM_BYTES_PER_PAGE % 2 ^ 32)
      | .outOfMemory => .error .outOfMemory
      | .outOfMaxSize => .error .outOfMaxSize
      | .outOfQuota => .error .outOfQuota
      | .otherFailure => .error .unknown

/-! ## Snapshot restore -/

/-- wasm::MemorySerialised: a page count and the raw page bytes
(the snapshot framing is `u64 pageCount` then the bytes). -/
structure MemorySerialised where
  numPages : Nat
  data : List Nat
deriving DecidableEq, Repr

/-- The `memcpy(memBase, mem.data.data(), memSize)` step of doRestore:
the first `numPages * WASM_BYTES_PER_PAGE` bytes of memory are replaced
by the snapshot bytes. -/
def restoreCopy (st : WasmMemory) (snap : MemorySerialised) : WasmMemory :=
  { st with
      contents :=
        snap.data.take (snap.numPages * WASM_BYTES_PER_PAGE) ++
          st.contents.drop (snap.numPages * WASM_BYTES_PER_PAGE) }

/-- WAVMWasmModule::doRestore (source lines 1409-1427).
`pagesRequired = mem.numPages - currentNumPages` is a `size_t`
subtraction, so it wraps modulo 2^64 when the snapshot is smaller than
the current memory; `mmapPages` takes the value truncated to U32. -/
def doRestore (st : WasmMemory) (snap : MemorySerialised)
    (grow : GrowOutcome) : Except MemErr WasmMemory :=
  let currentNumPages := st.pages
  let pagesRequired := (2 ^ 64 + snap.numPages - currentNumPages) % 2 ^ 64
  if pagesRequired > 0 then
    match mmapPages st (pagesRequired % 2 ^ 32) grow with
    | .error e => .error e
    | .ok (st', _) => .ok (restoreCopy st' snap)
  else
    .ok (restoreCopy st snap)

/-! ## Global Offset Table (GOT) state

`globalOffsetTableMap` maps function names to table indices,
`missingGlobalOffsetEntries` names to placeholder table slots, and the
default table is a list of slots each holding an optional function
object (modelled by the export name it was resolved from). -/

/-- Read a table slot (`Runtime::getTableElement`). -/
def tget {α : Type} : List α → Nat → Option α
  | [], _ => none
  | a :: _, 0 => some a
  | _ :: t, n + 1 => tget t n

/-- Write a table slot (`Runtime::setTableElement`); out-of-bounds
writes leave the table unchanged (they would trap in the backend, and
the engine only writes slots it previously grew). -/
def tset {α : Type} : List α → Nat → α → List α
  | [], _, _ => []
  | _ :: t, 0, a => a :: t
  | h :: t, n + 1, a => h :: tset t n a

/-- GOT state of a module instance: `globalOffsetTableMap`
(functionOffsets), `missingGlobalOffsetEntries` (missingEntries), and
the default table's slots.  `globalOffsetMemoryMap` (dataOffsets) is
kept separately since no GOT-invariant claim touches it. -/
structure GOTState where
  functionOffsets : List (String × Nat)
  missingEntries : List (String × Nat)
  table : List (Option String)
deriving DecidableEq, Repr

/-- The element-segment half of addModuleToGOT (source lines 277-331):
insert a batch of (exported element name, table index) pairs into
`globalOffsetTableMap` with C++ `insert` (keep-existing) semantics. -/
def addGOTNames (entries : List (String × Nat)) (st : GOTState) : GOTState :=
  { st with
      functionOffsets :=
        entries.foldl (fun m e => finsert e.1 e.2 m) st.functionOffsets }

/-- The `GOT.func` branch of WAVMWasmModule::resolve (source lines
1131-1203).  `search` is the oracle for the export search over the main
instance and already-loaded dynamic instances: `some f` when the name
is found (resolving to function object `f`), `none` on a miss.  Returns
the updated state and the table index the fresh import global is
initialised to. -/
def resolveGOTFunc (st : GOTState) (name : String) (search : Option String) :
    GOTState × Nat :=
  match flook name st.functionOffsets with
  | some idx => (st, idx)
  | none =>
    match search with
    | some f =>
        -- addFunctionToTable: grow by one, install at the previous end
        let idx := st.table.length
        ({ st with
            table := st.table ++ [some f],
            functionOffsets := finsert name idx st.functionOffsets }, idx)
    | none =>
        -- placeholder slot to be filled in later
        let idx := st.table.length
        ({ st with
            table := st.table ++ [none],
            missingEntries := finsert name idx st.missingEntries }, idx)

/-- Errors raised while creating a module instance. -/
inductive LinkErr
  | missingGOTEntry
deriving DecidableEq, Repr

/-- The patch-up loop of createModuleInstance (source lines 615-636):
for each missing entry, look the name up in the freshly instantiated
instance's exports (`exports` oracle); a miss throws "Failed linking
module on missing GOT entry", a hit writes the function into the
placeholder table slot and inserts the name into
`globalOffsetTableMap`. -/
def patchLoop (exports : String → Option String) :
    List (String × Nat) → GOTState → Except LinkErr GOTState
  | [], st => .ok st
  | (n, i) :: rest, st =>
    match exports n with
    | none => .error .missingGOTEntry
    | some f =>
        patchLoop exports rest
          { st with
              table := tset st.table i (some f),
              functionOffsets := finsert n i st.functionOffsets }

/-- Patch-up followed by `missingGlobalOffsetEntries.clear()` (source
line 639): on success every entry has been patched and the missing set
is empty. -/
def patchUpMissing (exports : String → Option String) (st : GOTState) :
    Except LinkErr GOTState :=
  match patchLoop exports st.missingEntries st with
  | .error e => .error e
  | .ok st' => .ok { st' with missingEntries := [] }

/-- Growing the default table by `n` fresh (null) slots, as done at the
start of createModuleInstance for a dynamic module (source lines
541-547) — `Runtime::growTable`. -/
def growTableStep (n : Nat) (st : GOTState) : GOTState :=
  { st with table := st.table ++ List.replicate n none }

/-- addFunctionToTable called outside linking
(getDynamicModuleFunction, source lines 786-804): grow the table by
one and install a function, leaving the GOT maps untouched. -/
def appendFuncStep (f : String) (st : GOTState) : GOTState :=
  { st with table := st.table ++ [some f] }

/-- GOT states reachable by the engine.  Steps mirror the only places
the source touches the three structures.  The side conditions record
control-flow facts of the source: `addModuleToGOT` only runs at the
start of createModuleInstance, when `missingGlobalOffsetEntries` is
empty (initially, or cleared by the previous instantiation's patch-up);
and within one linking pass the instance set searched by `resolve` is
fixed, so a name already recorded as missing cannot suddenly be found
by a later search in the same pass. -/
inductive GOTReachable : GOTState → Prop
  | init (t : List (Option String)) : GOTReachable ⟨[], [], t⟩
  | addGOT {st : GOTState} (entries : List (String × Nat)) :
      GOTReachable st → st.missingEntries = [] →
      GOTReachable (addGOTNames entries st)
  | growTable {st : GOTState} (n : Nat) :
      GOTReachable st → GOTReachable (growTableStep n st)
  | appendFunc {st : GOTState} (f : String) :
      GOTReachable st → GOTReachable (appendFuncStep f st)
  | resolveF {st : GOTState} (name : String) (search : Option String) :
      GOTReachable st →
      (flook name st.missingEntries ≠ none → search = none) →
      GOTReachable (resolveGOTFunc st name search).1
  | patch {st st' : GOTState} (exports : String → Option String) :
      GOTReachable st → patchUpMissing exports st = .ok st' →
      GOTReachable st'

/-- Well-formedness of the GOT state: missing names are absent from
`globalOffsetTableMap`, missing names and their placeholder slots are
pairwise distinct, and every placeholder slot is inside the table. -/
def GOTInv (st : GOTState) : Prop :=
  (∀ e ∈ st.missingEntries, flook e.1 st.functionOffsets = none) ∧
  (st.missingEntries.map Prod.fst).Nodup ∧
  (st.missingEntries.map Prod.snd).Nodup ∧
  (∀ e ∈ st.missingEntries, e.2 < st.table.length)

instance (st : GOTState) : Decidable (GOTInv st) := by
  unfold GOTInv; infer_instance

/-! ## Dynamic module loading (dlopen-style) -/

/-- Result of the boost::filesystem checks on the path. -/
inductive PathStat
  | isDirectory
  | notExists
  | isFile
deriving DecidableEq, Repr

/-- The registry state touched by WAVMWasmModule::dynamicLoadModule:
`dynamicPathToHandleMap`, the size of `dynamicModuleMap` (which
createModuleInstance grows by one entry per fresh load, via its
`dynamicModuleMap[handle]` access), and
`lastLoadedDynamicModuleHandle`. -/
structure DynLoadState where
  pathToHandle : List (String × Nat)
  moduleCount : Nat
  lastLoadedHandle : Nat
deriving DecidableEq, Repr

/-- WAVMWasmModule::dynamicLoadModule (source lines 676-725), with the
filesystem result as an oracle and a successful instantiation assumed
(instantiation failure throws and is outside the returned value).
Order of checks follows the source: cached handle first, then empty
path, then directory, then existence; a fresh load records the handle
`2 + dynamicModuleMap.size()`, sets the last-loaded cursor, and
instantiation adds the `dynamicModuleMap` entry. -/
def dynamicLoadModule (st : DynLoadState) (path : String) (stat : PathStat) :
    Nat × DynLoadState :=
  match flook path st.pathToHandle with
  | some cachedHandle => (cachedHandle, st)
  | none =>
    if path = "" then (MAIN_MODULE_DYNLINK_HANDLE, st)
    else
      match stat with
      | .isDirectory => (0, st)
      | .notExists => (0, st)
      | .isFile =>
        let thisHandle := 2 + st.moduleCount
        (thisHandle,
          { pathToHandle := finsert path thisHandle st.pathToHandle,
            moduleCount := st.moduleCount + 1,
            lastLoadedHandle := thisHandle })

/-- WAVMWasmModule::getDynamicModuleCount (source lines 1304-1307). -/
def getDynamicModuleCount (st : DynLoadState) : Nat :=
  st.moduleCount

/-- Registry well-formedness: the empty path is never cached (a load of
"" returns before any insertion) and every cached handle was allocated
as `2 + size-at-load-time`, hence is at least 2 and below
`2 + moduleCount`. -/
def DynWF (st : DynLoadState) : Prop :=
  flook "" st.pathToHandle = none ∧
  ∀ p h, flook p st.pathToHandle = some h → 2 ≤ h ∧ h < 2 + st.moduleCount

/-! ## Module binding -/

/-- Scalar binding state of a WAVMWasmModule. -/
structure ModState where
  isBound : Bool
  boundUser : String
  boundFunction : String
deriving DecidableEq, Repr

/-- Errors raised by doBindToFunction. -/
inductive BindErr
  | bindingError
deriving DecidableEq, Repr

/-- Steps doBindToFunction performs after the double-bind check, in
source order (lines 409-422): record the bound flag, create the
compartment, create the execution context, create the main module
instance. -/
inductive BindEvent
  | setBound
  | createCompartment
  | createContext
  | createMainInstance
deriving DecidableEq, Repr

/-- WAVMWasmModule::doBindToFunction (source lines 394-428): throws
"Cannot bind a module twice" when already bound; otherwise sets
`_isBound = true` first, then builds compartment, context and main
instance.  The event trace records the order of those effects. -/
def doBindToFunction (st : ModState) (user function : String) :
    Except BindErr (ModState × List BindEvent) :=
  if st.isBound then .error .bindingError
  else
    .ok ({ isBound := true, boundUser := user, boundFunction := function },
      [.setBound, .createCompartment, .createContext, .createMainInstance])

/-! ## Execution -/

/-- Outcome of running the backend invoker on the prepared function:
a normal return with an i32 result, a backend runtime exception
(trap), or a guest `exit(code)` surfacing as WasmExitException. -/
inductive InvokeOutcome
  | normal (ret : Int)
  | trap
  | wasmExit (code : Int)
deriving DecidableEq, Repr

/-- The invocation message fields the execute path reads and writes. -/
structure Msg where
  user : String
  function : String
  ompdepth : Nat
  returnvalue : Int
deriving DecidableEq, Repr

/-- Errors execute can throw past its catchers. -/
inductive ExecErr
  | notBound
  | wrongFunction
  | unexpectedMutableGlobal
deriving DecidableEq, Repr

/-- The trap-catcher block of WAVMWasmModule::execute (source lines
886-926): a backend runtime exception is converted to
(success = false, returnValue = 1); a WasmExitException with code `c`
gives returnValue = c and success exactly when c = 0; a normal return
keeps success = true with the i32 result. -/
def runWithCatcher (outcome : InvokeOutcome) : Bool × Int :=
  match outcome with
  | .normal r => (true, r)
  | .trap => (false, 1)
  | .wasmExit c => (decide (c = 0), c)

/-- The catcher of WAVMWasmModule::executeThreadLocally (source lines
1457-1486): same conversion but with no success flag — a trap yields
return value 1 and a guest exit yields its code. -/
def threadLocalResult (outcome : InvokeOutcome) : Int :=
  match outcome with
  | .normal r => r
  | .trap => 1
  | .wasmExit c => c

/-- WAVMWasmModule::executeThreadLocally (source lines 1433-1487):
asserts the first mutable global of the fresh thread context equals
STACK_SIZE (throwing "Unexpected mutable global format" otherwise),
then runs the thread body under the catcher. -/
def executeThreadLocally (stackGlobal : Nat) (outcome : InvokeOutcome) :
    Except ExecErr Int :=
  if stackGlobal ≠ STACK_SIZE then .error .unexpectedMutableGlobal
  else .ok (threadLocalResult outcome)

/-- WAVMWasmModule::execute (source lines 809-927), with the backend
invocation outcome and the OMP thread context's first mutable global as
oracles.  Returns the success flag and the message with its recorded
return value; the module state is returned unchanged — execute never
tears the module down.  Guard order follows the source: bound check,
bound-function check, OMP dispatch (which returns true
unconditionally), then the forceNoop shortcut or the catcher. -/
def execute (st : ModState) (msg : Msg) (forceNoop : Bool)
    (outcome : InvokeOutcome) (ompStackGlobal : Nat) :
    Except ExecErr (Bool × Msg × ModState) :=
  if st.isBound = false then .error .notBound
  else if st.boundUser ≠ msg.user ∨ st.boundFunction ≠ msg.function then
    .error .wrongFunction
  else if msg.ompdepth > 0 then
    match executeThreadLocally ompStackGlobal outcome with
    | .error e => .error e
    | .ok rv => .ok (true, { msg with returnvalue := rv }, st)
  else if forceNoop then
    .ok (true, { msg with returnvalue := 0 }, st)
  else
    let res := runWithCatcher outcome
    .ok (res.1, { msg with returnvalue := res.2 }, st)

/-! ## Dynamic module memory layout -/

/-- LoadedDynamicModule's layout record. -/
structure DynLayout where
  memoryBottom : Nat
  memoryTop : Nat
  stackSize : Nat
  stackTop : Nat
  stackPointer : Nat
  dataBottom : Nat
  dataTop : Nat
  heapBottom : Nat
  tableBottom : Nat
  tableTop : Nat
deriving DecidableEq, Repr

/-- The layout computation of createModuleInstance for a dynamic module
(source lines 553-580).  `dynamicModuleMemoryPages` and
`dynamicModuleStackSize` are the DYNAMIC_MODULE_MEMORY_PAGES and
DYNAMIC_MODULE_STACK_SIZE constants (defined in a header outside this
slice, so kept as parameters); `newMemory` is the offset returned by
the fresh `mmapPages(DYNAMIC_MODULE_MEMORY_PAGES)` call; `dataSize` is
the shared module's data size; `oldTableElems` and `newTableElems`
come from `growTable`. -/
def buildDynamicModuleLayout (dynamicModuleMemoryPages : Nat)
    (dynamicModuleStackSize : Nat) (newMemory : Nat) (dataSize : Nat)
    (oldTableElems : Nat) (newTableElems : Nat) : DynLayout :=
  let memoryBottom := newMemory
  let memoryTop :=
    memoryBottom + dynamicModuleMemoryPages * WASM_BYTES_PER_PAGE
  let stackSize := dynamicModuleStackSize
  let stackTop := memoryBottom + stackSize
  let stackPointer := stackTop - 1
  let dataBottom := stackTop
  let dataTop := dataBottom + dataSize
  { memoryBottom := memoryBottom
    memoryTop := memoryTop
    stackSize := stackSize
    stackTop := stackTop
    stackPointer := stackPointer
    dataBottom := dataBottom
    dataTop := dataTop
    heapBottom := dataTop
    tableBottom := oldTableElems
    tableTop := newTableElems }

/-! ## GOT.mem resolution -/

/-- A created backend global: its (possibly forced) mutability and its
initialised i32 value. -/
structure ResolvedGlobal where
  isMutable : Bool
  value : Int
deriving DecidableEq, Repr

/-- The `GOT.mem` branch of WAVMWasmModule::resolve (source lines
1094-1129).  `dataOffsets` is `globalOffsetMemoryMap` mapping a symbol
to its (initialised value, source mutability); `importMutable` is the
mutability of the requested import's global type.  A missing symbol
fails resolution (`return false`, the GotMissingData outcome, modelled
as `none`); otherwise a fresh global is created whose type is forced
mutable and whose value is the recorded offset — the stored mutability
flag is only logged, never used. -/
def resolveGOTMem (dataOffsets : List (String × (Int × Bool)))
    (name : String) (importMutable : Bool) : Option ResolvedGlobal :=
  match flook name dataOffsets with
  | none => none
  | some memOffset => some { isMutable := true, value := memOffset.1 }

/-! # Theorems

Helper lemmas first, then one theorem (plus witness or
counterexample) per specification claim. -/

/-! ## Association-list and table lemmas -/

theorem flook_finsert_self {α : Type} (k : String) (v : α)
    (m : List (String × α)) (h : flook k m = none) :
    flook k (finsert k v m) = some v := by
  simp [finsert, h, flook]

theorem flook_finsert_ne {α : Type} (k k' : String) (v : α)
    (m : List (String × α)) (hne : k ≠ k') :
    flook k' (finsert k v m) = flook k' m := by
  unfold finsert
  cases hf : flook k m with
  | some w => rfl
  | none => simp [flook, hne]

theorem length_tset {α : Type} (l : List α) (i : Nat) (a : α) :
    (tset l i a).length = l.length := by
  induction l generalizing i with
  | nil => rfl
  | cons h t ih =>
    cases i with
    | zero => rfl
    | succ n => simp [tset, ih]

theorem tget_tset_self {α : Type} (l : List α) (i : Nat) (a : α)
    (h : i < l.length) : tget (tset l i a) i = some a := by
  induction l generalizing i with
  | nil => simp at h
  | cons hd t ih =>
    cases i with
    | zero => rfl
    | succ n =>
      simp only [tset, tget]
      exact ih n (by simpa using h)

theorem tget_tset_ne {α : Type} (l : List α) (i j : Nat) (a : α)
    (h : i ≠ j) : tget (tset l i a) j = tget l j := by
  induction l generalizing i j with
  | nil => rfl
  | cons hd t ih =>
    cases i with
    | zero =>
      cases j with
      | zero => exact absurd rfl h
      | succ m => rfl
    | succ n =>
      cases j with
      | zero => rfl
      | succ m =>
        simp only [tset, tget]
        exact ih n m (by omega)

theorem flook_ne_none_of_mem {α : Type} {n : String} {v : α}
    {m : List (String × α)} (h : (n, v) ∈ m) : flook n m ≠ none := by
  induction m with
  | nil => simp at h
  | cons hd t ih =>
    rcases List.mem_cons.mp h with heq | ht
    · subst heq; simp [flook]
    · obtain ⟨k', v'⟩ := hd
      by_cases hk : k' = n
      · simp [flook, hk]
      · simpa [flook, hk] using ih ht

theorem not_mem_keys_of_flook_none {α : Type} {n : String}
    {m : List (String × α)} (h : flook n m = none) :
    n ∉ m.map Prod.fst := by
  intro hmem
  obtain ⟨e, he, hfst⟩ := List.mem_map.mp hmem
  have hem : (n, e.2) ∈ m := by
    have he2 : e = (n, e.2) := by
      obtain ⟨a, b⟩ := e
      simp only [Prod.mk.injEq, and_true]
      simpa using hfst
    exact he2 ▸ he
  exact flook_ne_none_of_mem hem h

/-! ## Preservation of `GOTInv` along every engine step -/

theorem gotInv_init (t : List (Option String)) :
    GOTInv ⟨[], [], t⟩ := by
  simp [GOTInv]

theorem gotInv_addGOT {st : GOTState} (entries : List (String × Nat))
    (hm : st.missingEntries = []) : GOTInv (addGOTNames entries st) := by
  simp [GOTInv, addGOTNames, hm]

theorem gotInv_growTable {st : GOTState} (n : Nat) (h : GOTInv st) :
    GOTInv (growTableStep n st) := by
  obtain ⟨h1, h2, h3, h4⟩ := h
  refine ⟨h1, h2, h3, ?_⟩
  intro e he
  have := h4 e he
  simp only [growTableStep, List.length_append]
  omega

theorem gotInv_appendFunc {st : GOTState} (f : String) (h : GOTInv st) :
    GOTInv (appendFuncStep f st) := by
  obtain ⟨h1, h2, h3, h4⟩ := h
  refine ⟨h1, h2, h3, ?_⟩
  intro e he
  have := h4 e he
  simp only [appendFuncStep, List.length_append]
  omega

theorem gotInv_resolveF {st : GOTState} (name : String)
    (search : Option String) (h : GOTInv st)
    (hstale : flook name st.missingEntries ≠ none → search = none) :
    GOTInv (resolveGOTFunc st name search).1 := by
  obtain ⟨h1, h2, h3, h4⟩ := h
  unfold resolveGOTFunc
  cases hfo : flook name st.functionOffsets with
  | some idx => exact ⟨h1, h2, h3, h4⟩
  | none =>
    cases hs : search with
    | some f =>
      refine ⟨?_, h2, h3, ?_⟩
      · intro e he
        by_cases hn : e.1 = name
        · exfalso
          have : flook name st.missingEntries ≠ none := by
            have : (name, e.2) ∈ st.missingEntries := by
              have : e = (name, e.2) := by
                cases e; simp_all
              exact this ▸ he
            exact flook_ne_none_of_mem this
          simpa [hs] using hstale this
        · rw [flook_finsert_ne name e.1 _ _ (fun hc => hn hc.symm)]
          exact h1 e he
      · intro e he
        have := h4 e he
        simp only [List.length_append, List.length_cons, List.length_nil]
        omega
    | none =>
      unfold finsert
      cases hm : flook name st.missingEntries with
      | some j =>
        refine ⟨h1, h2, h3, ?_⟩
        intro e he
        have := h4 e he
        simp only [List.length_append, List.length_cons, List.length_nil]
        omega
      | none =>
        refine ⟨?_, ?_, ?_, ?_⟩
        · intro e he
          rcases List.mem_cons.mp he with heq | ht
          · subst heq; exact hfo
          · exact h1 e ht
        · simp only [List.map_cons]
          exact List.nodup_cons.mpr ⟨not_mem_keys_of_flook_none hm, h2⟩
        · simp only [List.map_cons]
          refine List.nodup_cons.mpr ⟨?_, h3⟩
          intro hc
          obtain ⟨e, he, hsnd⟩ := List.mem_map.mp hc
          have := h4 e he
          omega
        · intro e he
          simp only [List.length_append, List.length_cons, List.length_nil]
          rcases List.mem_cons.mp he with heq | ht
          · subst heq; omega
          · have := h4 e ht; omega

theorem gotInv_patch {st st' : GOTState} (exports : String → Option String)
    (h : patchUpMissing exports st = .ok st') : GOTInv st' := by
  unfold patchUpMissing at h
  cases hp : patchLoop exports st.missingEntries st with
  | error e => rw [hp] at h; cases h
  | ok st'' =>
    rw [hp] at h
    cases h
    simp [GOTInv]

/-- Every reachable GOT state is well-formed. -/
theorem gotReachable_inv {st : GOTState} (h : GOTReachable st) : GOTInv st := by
  induction h with
  | init t => exact gotInv_init t
  | addGOT entries _ hm _ => exact gotInv_addGOT entries hm
  | growTable n _ ih => exact gotInv_growTable n ih
  | appendFunc f _ ih => exact gotInv_appendFunc f ih
  | resolveF name search _ hstale ih => exact gotInv_resolveF name search ih hstale
  | patch exports _ hok _ => exact gotInv_patch exports hok

/-! ## Specification of the patch-up loop -/

theorem patchLoop_spec (exports : String → Option String) :
    ∀ (entries : List (String × Nat)) (st : GOTState),
    (entries.map Prod.fst).Nodup →
    (entries.map Prod.snd).Nodup →
    (∀ e ∈ entries, flook e.1 st.functionOffsets = none) →
    (∀ e ∈ entries, e.2 < st.table.length) →
    ∀ st', patchLoop exports entries st = .ok st' →
      st'.missingEntries = st.missingEntries ∧
      st'.table.length = st.table.length ∧
      (∀ n, n ∉ entries.map Prod.fst →
        flook n st'.functionOffsets = flook n st.functionOffsets) ∧
      (∀ j, j ∉ entries.map Prod.snd → tget st'.table j = tget st.table j) ∧
      (∀ e ∈ entries, flook e.1 st'.functionOffsets = some e.2 ∧
        ∃ f, exports e.1 = some f ∧ tget st'.table e.2 = some (some f)) := by
  intro entries
  induction entries with
  | nil =>
    intro st _ _ _ _ st' h
    cases h
    exact ⟨rfl, rfl, fun _ _ => rfl, fun _ _ => rfl, fun e he => by simp at he⟩
  | cons hd rest ih =>
    intro st hnames hidx hfresh hbound st' h
    obtain ⟨n, i⟩ := hd
    unfold patchLoop at h
    cases hex : exports n with
    | none => rw [hex] at h; cases h
    | some f =>
      rw [hex] at h
      rw [List.map_cons] at hnames hidx
      have hnodn : n ∉ rest.map Prod.fst := (List.nodup_cons.mp hnames).1
      have hnodi : i ∉ rest.map Prod.snd := (List.nodup_cons.mp hidx).1
      have hfo_n : flook n st.functionOffsets = none :=
        hfresh (n, i) (List.mem_cons_self _ _)
      have hlen_i : i < st.table.length := hbound (n, i) (List.mem_cons_self _ _)
      set st1 : GOTState :=
        { st with
            table := tset st.table i (some f),
            functionOffsets := finsert n i st.functionOffsets } with hst1
      have hrest := ih st1
        (List.nodup_cons.mp hnames).2
        (List.nodup_cons.mp hidx).2
        (by
          intro e he
          have hne : e.1 ≠ n := by
            intro hc
            exact hnodn (hc ▸ List.mem_map_of_mem Prod.fst he)
          have : flook e.1 st1.functionOffsets
              = flook e.1 st.functionOffsets :=
            flook_finsert_ne n e.1 i _ (fun hc => hne hc.symm)
          rw [this]
          exact hfresh e (List.mem_cons_of_mem _ he))
        (by
          intro e he
          have : st1.table.length = st.table.length := length_tset _ _ _
          rw [this]
          exact hbound e (List.mem_cons_of_mem _ he))
        st' h
      obtain ⟨hm, hl, hpn, hpt, hmain⟩ := hrest
      have hl1 : st1.table.length = st.table.length := length_tset _ _ _
      refine ⟨hm, by rw [hl, hl1], ?_, ?_, ?_⟩
      · intro m hmn
        have hm1 : m ∉ rest.map Prod.fst := by
          intro hc; exact hmn (by simp [hc])
        have hm2 : m ≠ n := by
          intro hc; exact hmn (by simp [hc])
        rw [hpn m hm1]
        exact flook_finsert_ne n m i _ (fun hc => hm2 hc.symm)
      · intro j hj
        have hj1 : j ∉ rest.map Prod.snd := by
          intro hc; exact hj (by simp [hc])
        have hj2 : i ≠ j := by
          intro hc; exact hj (by simp [hc])
        rw [hpt j hj1]
        exact tget_tset_ne st.table i j (some f) hj2
      · intro e he
        rcases List.mem_cons.mp he with heq | ht
        · subst heq
          constructor
          · rw [hpn n hnodn]
            exact flook_finsert_self n i _ hfo_n
          · refine ⟨f, hex, ?_⟩
            rw [hpt i hnodi]
            exact tget_tset_self st.table i (some f) hlen_i
        · exact hmain e ht

/-- A missing entry the newly instantiated instance does not export
makes the patch-up loop fail. -/
theorem patchLoop_error_of_unexported (exports : String → Option String) :
    ∀ (entries : List (String × Nat)) (st : GOTState),
    (∃ e ∈ entries, exports e.1 = none) →
    patchLoop exports entries st = .error .missingGOTEntry := by
  intro entries
  induction entries with
  | nil =>
    intro st h
    obtain ⟨e, he, _⟩ := h
    simp at he
  | cons hd rest ih =>
    intro st h
    obtain ⟨n, i⟩ := hd
    unfold patchLoop
    cases hex : exports n with
    | none => rfl
    | some f =>
      obtain ⟨e, he, hnone⟩ := h
      rcases List.mem_cons.mp he with heq | ht
      · subst heq; rw [hex] at hnone; cases hnone
      · exact ih _ ⟨e, ht, hnone⟩

/-- When every missing entry is exported by the new instance the
patch-up loop succeeds. -/
theorem patchLoop_ok_of_exported (exports : String → Option String) :
    ∀ (entries : List (String × Nat)) (st : GOTState),
    (∀ e ∈ entries, ∃ f, exports e.1 = some f) →
    ∃ st', patchLoop exports entries st = .ok st' := by
  intro entries
  induction entries with
  | nil => intro st _; exact ⟨st, rfl⟩
  | cons hd rest ih =>
    intro st h
    obtain ⟨n, i⟩ := hd
    obtain ⟨f, hf⟩ := h (n, i) (List.mem_cons_self _ _)
    unfold patchLoop
    rw [hf]
    exact ih _ (fun e he => h e (List.mem_cons_of_mem _ he))

/-- dynamicLoadModule preserves registry well-formedness. -/
theorem dynWF_preserved (st : DynLoadState) (path : String) (stat : PathStat)
    (h : DynWF st) : DynWF (dynamicLoadModule st path stat).2 := by
  obtain ⟨hempty, hrange⟩ := h
  unfold dynamicLoadModule
  cases hc : flook path st.pathToHandle with
  | some cachedHandle => exact ⟨hempty, hrange⟩
  | none =>
    by_cases hp : path = ""
    · simp only [hp, if_pos rfl]
      exact ⟨hempty, hrange⟩
    · simp only [if_neg hp]
      cases stat with
      | isDirectory => exact ⟨hempty, hrange⟩
      | notExists => exact ⟨hempty, hrange⟩
      | isFile =>
        dsimp only
        refine ⟨?_, ?_⟩
        · have : ("" : String) ≠ path := fun hc2 => hp hc2.symm
          rw [flook_finsert_ne path "" _ _ (fun hc2 => hp hc2)]
          exact hempty
        · intro p hdl hl
          dsimp only at hl ⊢
          by_cases hpp : p = path
          · rw [hpp, flook_finsert_self path _ _ hc] at hl
            cases hl
            constructor <;> omega
          · rw [flook_finsert_ne path p _ _ (fun hc2 => hpp hc2.symm)] at hl
            have := hrange p hdl hl
            constructor <;> omega

/-! ## Claim C1 -/

/-- C1 counterexample: the claim says unpatched GOT entries are a
deferred linking error, raised only when a caller dereferences the
slot.  In the code, however, createModuleInstance's patch-up throws
"Failed linking module on missing GOT entry" the moment a missing
entry is not exported by the newly instantiated module: here a state
with one unpatched entry ("g" at slot 5) and an instance exporting
nothing makes instantiation fail at link time, with no dereference
involved. -/
theorem c1_unpatched_fatal_counterexample :
    patchUpMissing (fun _ => none)
      ⟨[], [("g", 5)], [none, none, none, none, none, none]⟩ =
      .error .missingGOTEntry := by
  rfl

/-- C1 amended: GOT entries still missing at a module's
instantiation-time patch-up are checked eagerly against the new
instance's exports: if any entry is not exported, createModuleInstance
raises a fatal link error immediately (so an unpatched slot never
survives to use time); if all are exported, instantiation succeeds
with the missing set emptied. -/
theorem c1_patchup_eager_policy (exports : String → Option String)
    (st : GOTState) :
    ((∃ e ∈ st.missingEntries, exports e.1 = none) →
      patchUpMissing exports st = .error .missingGOTEntry) ∧
    ((∀ e ∈ st.missingEntries, ∃ f, exports e.1 = some f) →
      ∃ st', patchUpMissing exports st = .ok st' ∧ st'.missingEntries = []) := by
  constructor
  · intro h
    unfold patchUpMissing
    rw [patchLoop_error_of_unexported exports st.missingEntries st h]
  · intro h
    obtain ⟨st'', hok⟩ := patchLoop_ok_of_exported exports st.missingEntries st h
    refine ⟨{ st'' with missingEntries := [] }, ?_, rfl⟩
    unfold patchUpMissing
    rw [hok]

/-- Witness for the amended C1 policy at concrete inputs. -/
theorem c1_patchup_eager_policy_witness :
    patchUpMissing (fun _ => none)
      ⟨[], [("h1", 3)], [none, none, none, none]⟩ =
      .error .missingGOTEntry ∧
    ∃ st', patchUpMissing (fun n => some (String.append n "X"))
      ⟨[], [("h1", 3)], [none, none, none, none]⟩ = .ok st' ∧
      st'.missingEntries = [] := by
  constructor
  · exact (c1_patchup_eager_policy (fun _ => none)
      ⟨[], [("h1", 3)], [none, none, none, none]⟩).1
      ⟨("h1", 3), by simp, rfl⟩
  · exact (c1_patchup_eager_policy (fun n => some (String.append n "X"))
      ⟨[], [("h1", 3)], [none, none, none, none]⟩).2
      (fun e _ => ⟨String.append e.1 "X", rfl⟩)

/-! ## Claim C7 -/

/-- C7: at every reachable GOT state, no key of
missingGlobalOffsetEntries is also a key of globalOffsetTableMap; and
a successful module instantiation's patch-up empties the missing set,
moving every patched name into globalOffsetTableMap with the table
slot at its recorded index set to the resolved export. -/
theorem c7_got_disjoint_and_patchup :
    (∀ st : GOTState, GOTReachable st →
      ∀ e ∈ st.missingEntries, flook e.1 st.functionOffsets = none) ∧
    (∀ (st st' : GOTState) (exports : String → Option String),
      GOTInv st → patchUpMissing exports st = .ok st' →
      st'.missingEntries = [] ∧
      ∀ e ∈ st.missingEntries,
        flook e.1 st'.functionOffsets = some e.2 ∧
        ∃ f, exports e.1 = some f ∧ tget st'.table e.2 = some (some f)) := by
  constructor
  · intro st h
    exact (gotReachable_inv h).1
  · intro st st' exports hinv hok
    obtain ⟨h1, h2, h3, h4⟩ := hinv
    unfold patchUpMissing at hok
    cases hp : patchLoop exports st.missingEntries st with
    | error e => rw [hp] at hok; cases hok
    | ok st'' =>
      rw [hp] at hok
      cases hok
      have hspec :=
        patchLoop_spec exports st.missingEntries st h2 h3 h1 h4 st'' hp
      obtain ⟨_, _, _, _, hmain⟩ := hspec
      exact ⟨rfl, fun e he => hmain e he⟩

/-- Witness for C7 at a concrete reachable-style state: one patched
entry ("g" at slot 2) moved into the GOT map with the table slot set. -/
theorem c7_got_disjoint_and_patchup_witness :
    (⟨[("g", 2), ("a", 0)], [],
      [some "a", none, some "gImpl"]⟩ : GOTState).missingEntries = [] ∧
    flook "g" (⟨[("g", 2), ("a", 0)], [],
      [some "a", none, some "gImpl"]⟩ : GOTState).functionOffsets = some 2 ∧
    tget (⟨[("g", 2), ("a", 0)], [],
      [some "a", none, some "gImpl"]⟩ : GOTState).table 2 =
      some (some "gImpl") := by
  have h := c7_got_disjoint_and_patchup.2
    ⟨[("a", 0)], [("g", 2)], [some "a", none, none]⟩
    ⟨[("g", 2), ("a", 0)], [], [some "a", none, some "gImpl"]⟩
    (fun n => if n = "g" then some "gImpl" else none)
    (by decide) (by rfl)
  obtain ⟨hempty, hmain⟩ := h
  have hg := hmain ("g", 2) (by simp)
  refine ⟨hempty, hg.1, ?_⟩
  obtain ⟨f, hf, ht⟩ := hg.2
  have hfe : f = "gImpl" := by
    simpa using hf.symm
  rw [hfe] at ht
  exact ht

/-! ## Claim C2 -/

/-- C2: restoring a snapshot of `p` pages while the memory has `c`
pages grows the memory by `p − c` pages when that difference is
positive, grows nothing when `p = c`, and in both cases then copies the
snapshot bytes over the memory base; a snapshot smaller than the
current memory is not permitted — the wrapped `size_t` subtraction
makes the grow request exceed the memory maximum and restore fails
before copying (for any backend grow outcome). -/
theorem c2_doRestore_grow_copy_spec (st : WasmMemory)
    (snap : MemorySerialised) (grow : GrowOutcome) :
    (st.pages < snap.numPages → snap.numPages < 2 ^ 32 →
      snap.numPages ≤ st.maxPages → grow = GrowOutcome.success →
      doRestore st snap grow =
        .ok (restoreCopy
          { st with
              pages := snap.numPages,
              contents := st.contents ++
                List.replicate
                  ((snap.numPages - st.pages) * WASM_BYTES_PER_PAGE) 0 }
          snap)) ∧
    (snap.numPages = st.pages →
      doRestore st snap grow = .ok (restoreCopy st snap)) ∧
    (snap.numPages < st.pages → st.pages < 2 ^ 32 → st.maxPages < 2 ^ 32 →
      doRestore st snap grow = .error .exceedsMax) := by
  have e64 : (2 : Nat) ^ 64 = 18446744073709551616 := by norm_num
  have e32 : (2 : Nat) ^ 32 = 4294967296 := by norm_num
  refine ⟨?_, ?_, ?_⟩
  · intro h1 h2 h3 h4
    subst h4
    rw [e32] at h2
    have hwrap : (2 ^ 64 + snap.numPages - st.pages) % 2 ^ 64 =
        snap.numPages - st.pages := by
      rw [e64]; omega
    have harg : (snap.numPages - st.pages) % 2 ^ 32 =
        snap.numPages - st.pages := by
      rw [e32]; omega
    simp only [doRestore]
    rw [hwrap, harg, if_pos (by omega : snap.numPages - st.pages > 0)]
    simp only [mmapPages]
    rw [if_neg (by omega : ¬snap.numPages - st.pages = 0),
      if_neg (by omega : ¬st.pages + (snap.numPages - st.pages) > st.maxPages)]
    have hpc : st.pages + (snap.numPages - st.pages) = snap.numPages := by
      omega
    rw [hpc]
  · intro h
    have hwrap0 : (2 ^ 64 + snap.numPages - st.pages) % 2 ^ 64 = 0 := by
      rw [e64]; omega
    simp only [doRestore]
    rw [hwrap0, if_neg (by omega : ¬(0 : Nat) > 0)]
  · intro h1 h2 h3
    rw [e32] at h2 h3
    have hwrap : (2 ^ 64 + snap.numPages - st.pages) % 2 ^ 64 =
        2 ^ 64 - (st.pages - snap.numPages) := by
      rw [e64]; omega
    have harg : (2 ^ 64 - (st.pages - snap.numPages)) % 2 ^ 32 =
        2 ^ 32 - (st.pages - snap.numPages) := by
      rw [e64, e32]; omega
    simp only [doRestore]
    rw [hwrap, harg,
      if_pos (by rw [e64]; omega : 2 ^ 64 - (st.pages - snap.numPages) > 0)]
    simp only [mmapPages]
    rw [if_neg (by rw [e32]; omega :
        ¬(2 ^ 32 - (st.pages - snap.numPages)) = 0),
      if_pos (by rw [e32]; omega :
        st.pages + (2 ^ 32 - (st.pages - snap.numPages)) > st.maxPages)]

/-- Witness for C2: a one-page snapshot restored into empty memory
grows by one page and copies; an equal-size snapshot only copies; a
one-page snapshot into a three-page memory fails. -/
theorem c2_doRestore_grow_copy_spec_witness :
    doRestore ⟨0, 2, []⟩ ⟨1, [7]⟩ GrowOutcome.success =
      .ok (restoreCopy
        ⟨1, 2, [] ++ List.replicate (1 * WASM_BYTES_PER_PAGE) 0⟩ ⟨1, [7]⟩) ∧
    doRestore ⟨2, 5, [9]⟩ ⟨2, []⟩ GrowOutcome.success =
      .ok (restoreCopy ⟨2, 5, [9]⟩ ⟨2, []⟩) ∧
    doRestore ⟨3, 4, []⟩ ⟨1, []⟩ GrowOutcome.success =
      .error .exceedsMax := by
  refine ⟨?_, ?_, ?_⟩
  · have h := (c2_doRestore_grow_copy_spec ⟨0, 2, []⟩ ⟨1, [7]⟩
      GrowOutcome.success).1 (by norm_num) (by norm_num) (by norm_num) rfl
    exact h
  · exact (c2_doRestore_grow_copy_spec ⟨2, 5, [9]⟩ ⟨2, []⟩
      GrowOutcome.success).2.1 rfl
  · exact (c2_doRestore_grow_copy_spec ⟨3, 4, []⟩ ⟨1, []⟩
      GrowOutcome.success).2.2 (by norm_num) (by norm_num) (by norm_num)

/-! ## Claim C3 -/

/-- C3 counterexample: the claim quantifies over every page count `k`,
but `mmapPages(0)` throws "Requesting mapping of zero pages", an error
that is none of the four memory kinds (OutOfMemory, OutOfMaxSize,
OutOfQuota, Unknown), and does not grow the memory either. -/
theorem c3_mmapPages_zero_counterexample :
    mmapPages ⟨5, 100, []⟩ 0 GrowOutcome.success = .error MemErr.zeroPages ∧
    MemErr.isOneOfFourKinds MemErr.zeroPages = false := by
  exact ⟨rfl, rfl⟩

/-- C3 amended: for every k > 0, mmapPages(k) either raises one of the
four memory error kinds (growing nothing), or grows the default memory
by exactly k pages and returns the byte offset of the previous memory
top, previous page count × 65536 (exact, since a 32-bit wasm memory
maximum is at most 65536 pages); mmapPages(0) instead raises a distinct
zero-pages error.  There is a single atomic backend grow, so the
memory never grows partially. -/
theorem c3_mmapPages_spec (st : WasmMemory) (k : Nat) (grow : GrowOutcome)
    (hk : 0 < k) (hmax : st.maxPages ≤ 65536) :
    (∃ e, mmapPages st k grow = .error e ∧ e.isOneOfFourKinds = true) ∨
    mmapPages st k grow =
      .ok ({ st with
              pages := st.pages + k,
              contents := st.contents ++
                List.replicate (k * WASM_BYTES_PER_PAGE) 0 },
        st.pages * WASM_BYTES_PER_PAGE) := by
  simp only [mmapPages]
  rw [if_neg (by omega : ¬k = 0)]
  by_cases hov : st.pages + k > st.maxPages
  · rw [if_pos hov]
    exact Or.inl ⟨.exceedsMax, rfl, rfl⟩
  · rw [if_neg hov]
    cases grow with
    | success =>
      right
      have hoff : st.pages * WASM_BYTES_PER_PAGE % 2 ^ 32 =
          st.pages * WASM_BYTES_PER_PAGE := by
        have e32 : (2 : Nat) ^ 32 = 4294967296 := by norm_num
        unfold WASM_BYTES_PER_PAGE
        rw [e32]
        omega
      rw [hoff]
    | outOfMemory => exact Or.inl ⟨.outOfMemory, rfl, rfl⟩
    | outOfMaxSize => exact Or.inl ⟨.outOfMaxSize, rfl, rfl⟩
    | outOfQuota => exact Or.inl ⟨.outOfQuota, rfl, rfl⟩
    | otherFailure => exact Or.inl ⟨.unknown, rfl, rfl⟩

/-- Witness for the amended C3 at a concrete input: growing a one-page
memory by two pages within a three-page maximum succeeds, returning
offset 65536. -/
theorem c3_mmapPages_spec_witness :
    (∃ e, mmapPages ⟨1, 3, [5]⟩ 2 GrowOutcome.success = .error e ∧
      e.isOneOfFourKinds = true) ∨
    mmapPages ⟨1, 3, [5]⟩ 2 GrowOutcome.success =
      .ok ({ pages := 1 + 2, maxPages := 3,
             contents := [5] ++ List.replicate (2 * WASM_BYTES_PER_PAGE) 0 },
        1 * WASM_BYTES_PER_PAGE) :=
  c3_mmapPages_spec ⟨1, 3, [5]⟩ 2 GrowOutcome.success (by norm_num)
    (by norm_num)

/-! ## Claim C4 -/

/-- C4: dynamicLoad returns 1 (the main-module handle) for the empty
path, 0 when the path is a directory or does not exist, and otherwise
a fresh handle ≥ 2 (2 + the current dynamic module count, not cached
before); it is idempotent — a second call with the same non-empty path
returns the same non-zero handle with no further state change, so the
dynamic module count increments at most once across the two calls. -/
theorem c4_dynamicLoad_spec (st : DynLoadState) (path : String)
    (stat stat2 : PathStat) :
    (DynWF st → ∀ s : PathStat,
      (dynamicLoadModule st "" s).1 = MAIN_MODULE_DYNLINK_HANDLE) ∧
    (flook path st.pathToHandle = none → path ≠ "" →
      (stat = PathStat.isDirectory ∨ stat = PathStat.notExists) →
      dynamicLoadModule st path stat = (0, st)) ∧
    (flook path st.pathToHandle = none → path ≠ "" →
      stat = PathStat.isFile →
      (dynamicLoadModule st path stat).1 = 2 + st.moduleCount ∧
      2 ≤ (dynamicLoadModule st path stat).1 ∧
      (DynWF st → ∀ p,
        flook p st.pathToHandle ≠ some (dynamicLoadModule st path stat).1) ∧
      getDynamicModuleCount (dynamicLoadModule st path stat).2 =
        getDynamicModuleCount st + 1) ∧
    (path ≠ "" → (dynamicLoadModule st path stat).1 ≠ 0 →
      (dynamicLoadModule (dynamicLoadModule st path stat).2 path stat2).1 =
        (dynamicLoadModule st path stat).1 ∧
      getDynamicModuleCount
        (dynamicLoadModule (dynamicLoadModule st path stat).2 path stat2).2 =
        getDynamicModuleCount (dynamicLoadModule st path stat).2 ∧
      getDynamicModuleCount (dynamicLoadModule st path stat).2 ≤
        getDynamicModuleCount st + 1) := by
  refine ⟨?_, ?_, ?_, ?_⟩
  · intro hwf s
    unfold dynamicLoadModule
    rw [hwf.1]
    rfl
  · intro hnone hne hds
    unfold dynamicLoadModule
    rw [hnone]
    simp only [if_neg hne]
    rcases hds with h | h <;> subst h <;> rfl
  · intro hnone hne hf
    subst hf
    have hload : dynamicLoadModule st path PathStat.isFile =
        (2 + st.moduleCount,
          { pathToHandle := finsert path (2 + st.moduleCount) st.pathToHandle,
            moduleCount := st.moduleCount + 1,
            lastLoadedHandle := 2 + st.moduleCount }) := by
      unfold dynamicLoadModule
      rw [hnone]
      simp only [if_neg hne]
    rw [hload]
    refine ⟨rfl, by omega, ?_, rfl⟩
    intro hwf p hp
    have := hwf.2 p (2 + st.moduleCount) hp
    omega
  · intro hne h0
    cases hc : flook path st.pathToHandle with
    | some cached =>
      have hload : dynamicLoadModule st path stat = (cached, st) := by
        unfold dynamicLoadModule
        rw [hc]
      have hload2 : dynamicLoadModule st path stat2 = (cached, st) := by
        unfold dynamicLoadModule
        rw [hc]
      rw [hload, hload2]
      exact ⟨rfl, rfl, by dsimp only [getDynamicModuleCount]; omega⟩
    | none =>
      cases stat with
      | isDirectory =>
        have hload : dynamicLoadModule st path PathStat.isDirectory =
            (0, st) := by
          unfold dynamicLoadModule
          rw [hc]
          simp only [if_neg hne]
        rw [hload] at h0
        exact absurd rfl h0
      | notExists =>
        have hload : dynamicLoadModule st path PathStat.notExists =
            (0, st) := by
          unfold dynamicLoadModule
          rw [hc]
          simp only [if_neg hne]
        rw [hload] at h0
        exact absurd rfl h0
      | isFile =>
        have hload : dynamicLoadModule st path PathStat.isFile =
            (2 + st.moduleCount,
              { pathToHandle :=
                  finsert path (2 + st.moduleCount) st.pathToHandle,
                moduleCount := st.moduleCount + 1,
                lastLoadedHandle := 2 + st.moduleCount }) := by
          unfold dynamicLoadModule
          rw [hc]
          simp only [if_neg hne]
        rw [hload]
        have hcached : flook path
            (finsert path (2 + st.moduleCount) st.pathToHandle) =
            some (2 + st.moduleCount) :=
          flook_finsert_self path _ _ hc
        have hload2 : dynamicLoadModule
            { pathToHandle :=
                finsert path (2 + st.moduleCount) st.pathToHandle,
              moduleCount := st.moduleCount + 1,
              lastLoadedHandle := 2 + st.moduleCount } path stat2 =
            (2 + st.moduleCount,
              { pathToHandle :=
                  finsert path (2 + st.moduleCount) st.pathToHandle,
                moduleCount := st.moduleCount + 1,
                lastLoadedHandle := 2 + st.moduleCount }) := by
          unfold dynamicLoadModule
          rw [hcached]
        rw [hload2]
        exact ⟨rfl, rfl, by dsimp only [getDynamicModuleCount]; omega⟩

/-- Witness for C4 at concrete inputs: an empty registry, path
"libA.so" as a file (and "libB" as a directory). -/
theorem c4_dynamicLoad_spec_witness :
    (dynamicLoadModule ⟨[], 0, 0⟩ "" PathStat.isFile).1 =
      MAIN_MODULE_DYNLINK_HANDLE ∧
    dynamicLoadModule ⟨[], 0, 0⟩ "libB" PathStat.isDirectory = (0, ⟨[], 0, 0⟩) ∧
    (dynamicLoadModule ⟨[], 0, 0⟩ "libA.so" PathStat.isFile).1 = 2 + 0 ∧
    (dynamicLoadModule
      (dynamicLoadModule ⟨[], 0, 0⟩ "libA.so" PathStat.isFile).2
      "libA.so" PathStat.isFile).1 =
      (dynamicLoadModule ⟨[], 0, 0⟩ "libA.so" PathStat.isFile).1 ∧
    getDynamicModuleCount
      (dynamicLoadModule
        (dynamicLoadModule ⟨[], 0, 0⟩ "libA.so" PathStat.isFile).2
        "libA.so" PathStat.isFile).2 =
      getDynamicModuleCount
        (dynamicLoadModule ⟨[], 0, 0⟩ "libA.so" PathStat.isFile).2 := by
  have hwf : DynWF ⟨[], 0, 0⟩ := by
    constructor
    · rfl
    · intro p h hc
      simp [flook] at hc
  have tDir := (c4_dynamicLoad_spec ⟨[], 0, 0⟩ "libB" PathStat.isDirectory
    PathStat.isFile).2.1 rfl (by decide) (Or.inl rfl)
  have tFile := c4_dynamicLoad_spec ⟨[], 0, 0⟩ "libA.so" PathStat.isFile
    PathStat.isFile
  have h1 := tFile.1 hwf PathStat.isFile
  have h3 := tFile.2.2.1 rfl (by decide) rfl
  have h4 := tFile.2.2.2 (by decide) (by rw [h3.1]; omega)
  exact ⟨h1, tDir, h3.1, h4.1, h4.2.1⟩

/-! ## Claim C5 -/

/-- C5: on the non-OMP path, execute runs the invocation under the
trap catcher: a backend runtime exception yields success = false with
return code 1; a guest exit with code c yields return code c and
success exactly when c = 0; a normal return keeps success = true; in
every case the return code is recorded into msg.returnvalue and the
module state is returned unchanged (no teardown). -/
theorem c5_execute_catcher_spec (st : ModState) (msg : Msg) (g : Nat)
    (hb : st.isBound = true) (hu : st.boundUser = msg.user)
    (hf : st.boundFunction = msg.function) (hd : msg.ompdepth = 0) :
    execute st msg false InvokeOutcome.trap g =
      .ok (false, { msg with returnvalue := 1 }, st) ∧
    (∀ c, execute st msg false (InvokeOutcome.wasmExit c) g =
      .ok (decide (c = 0), { msg with returnvalue := c }, st)) ∧
    (∀ c, c ≠ 0 → execute st msg false (InvokeOutcome.wasmExit c) g =
      .ok (false, { msg with returnvalue := c }, st)) ∧
    execute st msg false (InvokeOutcome.wasmExit 0) g =
      .ok (true, { msg with returnvalue := 0 }, st) ∧
    (∀ r, execute st msg false (InvokeOutcome.normal r) g =
      .ok (true, { msg with returnvalue := r }, st)) := by
  have hexec : ∀ oc : InvokeOutcome, execute st msg false oc g =
      .ok ((runWithCatcher oc).1,
        { msg with returnvalue := (runWithCatcher oc).2 }, st) := by
    intro oc
    unfold execute
    simp [hb, hu, hf, hd]
  refine ⟨hexec InvokeOutcome.trap, fun c => hexec (InvokeOutcome.wasmExit c),
    ?_, ?_, fun r => hexec (InvokeOutcome.normal r)⟩
  · intro c hc
    rw [hexec (InvokeOutcome.wasmExit c)]
    simp [runWithCatcher, hc]
  · rw [hexec (InvokeOutcome.wasmExit 0)]
    simp [runWithCatcher]

/-- Witness for C5 on a concretely bound module: a trap records 1 with
success false, exit(7) records 7 with success false, exit(0) records 0
with success true. -/
theorem c5_execute_catcher_spec_witness :
    execute ⟨true, "u", "f"⟩ ⟨"u", "f", 0, 42⟩ false InvokeOutcome.trap 0 =
      .ok (false, ⟨"u", "f", 0, 1⟩, ⟨true, "u", "f"⟩) ∧
    execute ⟨true, "u", "f"⟩ ⟨"u", "f", 0, 42⟩ false
        (InvokeOutcome.wasmExit 7) 0 =
      .ok (false, ⟨"u", "f", 0, 7⟩, ⟨true, "u", "f"⟩) ∧
    execute ⟨true, "u", "f"⟩ ⟨"u", "f", 0, 42⟩ false
        (InvokeOutcome.wasmExit 0) 0 =
      .ok (true, ⟨"u", "f", 0, 0⟩, ⟨true, "u", "f"⟩) := by
  have h := c5_execute_catcher_spec ⟨true, "u", "f"⟩ ⟨"u", "f", 0, 42⟩ 0
    rfl rfl rfl rfl
  exact ⟨h.1, h.2.2.1 7 (by decide), h.2.2.2.1⟩

/-! ## Claim C10 -/

/-- C10: whenever msg.ompdepth > 0, execute dispatches to
executeRemoteOMP and returns success = true unconditionally (for any
forceNoop flag); the OMP thread body's outcome is reflected only in
msg.returnvalue — its normal result, its exit code, or 1 on a runtime
exception — never in execute's boolean result. -/
theorem c10_execute_omp_spec (st : ModState) (msg : Msg) (forceNoop : Bool)
    (outcome : InvokeOutcome)
    (hb : st.isBound = true) (hu : st.boundUser = msg.user)
    (hf : st.boundFunction = msg.function) (hd : 0 < msg.ompdepth) :
    execute st msg forceNoop outcome STACK_SIZE =
      .ok (true, { msg with returnvalue := threadLocalResult outcome }, st) ∧
    threadLocalResult InvokeOutcome.trap = 1 ∧
    (∀ c, threadLocalResult (InvokeOutcome.wasmExit c) = c) ∧
    (∀ r, threadLocalResult (InvokeOutcome.normal r) = r) := by
  refine ⟨?_, rfl, fun c => rfl, fun r => rfl⟩
  unfold execute executeThreadLocally
  simp [hb, hu, hf, hd]

/-- Witness for C10: a trap inside the OMP thread body still yields
success = true, with return value 1 recorded on the message. -/
theorem c10_execute_omp_spec_witness :
    execute ⟨true, "u", "f"⟩ ⟨"u", "f", 2, 5⟩ true InvokeOutcome.trap
        STACK_SIZE =
      .ok (true, ⟨"u", "f", 2, 1⟩, ⟨true, "u", "f"⟩) := by
  have h := c10_execute_omp_spec ⟨true, "u", "f"⟩ ⟨"u", "f", 2, 5⟩ true
    InvokeOutcome.trap rfl rfl rfl (by decide)
  exact h.1

/-! ## Claim C6 -/

/-- C6: the layout recorded for a dynamic module with data size d while
the table had t elements before growth satisfies
memoryTop = memoryBottom + DYNAMIC_MODULE_MEMORY_PAGES × 65536,
stackTop = memoryBottom + DYNAMIC_MODULE_STACK_SIZE,
stackPointer = stackTop − 1 (wrap-free since the stack size is
positive), dataBottom = stackTop, dataTop = dataBottom + d,
heapBottom = dataTop, tableBottom = t, tableTop = the new table element
count.  In this embedding the record is a constructed value, so it is
immutable after construction, matching the source where the fields are
assigned once in createModuleInstance and never reassigned. -/
theorem c6_dynamic_layout_spec (dynamicModuleMemoryPages
    dynamicModuleStackSize newMemory dataSize oldTableElems
    newTableElems : Nat) (hs : 0 < dynamicModuleStackSize) :
    buildDynamicModuleLayout dynamicModuleMemoryPages dynamicModuleStackSize
      newMemory dataSize oldTableElems newTableElems =
      { memoryBottom := newMemory,
        memoryTop :=
          newMemory + dynamicModuleMemoryPages * WASM_BYTES_PER_PAGE,
        stackSize := dynamicModuleStackSize,
        stackTop := newMemory + dynamicModuleStackSize,
        stackPointer := newMemory + dynamicModuleStackSize - 1,
        dataBottom := newMemory + dynamicModuleStackSize,
        dataTop := newMemory + dynamicModuleStackSize + dataSize,
        heapBottom := newMemory + dynamicModuleStackSize + dataSize,
        tableBottom := oldTableElems,
        tableTop := newTableElems } ∧
    newMemory + dynamicModuleStackSize - 1 + 1 =
      newMemory + dynamicModuleStackSize ∧
    WASM_BYTES_PER_PAGE = 65536 := by
  refine ⟨rfl, by omega, rfl⟩

/-- Witness for C6 with DYNAMIC_MODULE_MEMORY_PAGES = 30 and a 64 KiB
dynamic stack. -/
theorem c6_dynamic_layout_spec_witness :
    buildDynamicModuleLayout 30 65536 720896 1000 10 25 =
      { memoryBottom := 720896,
        memoryTop := 720896 + 30 * WASM_BYTES_PER_PAGE,
        stackSize := 65536,
        stackTop := 720896 + 65536,
        stackPointer := 720896 + 65536 - 1,
        dataBottom := 720896 + 65536,
        dataTop := 720896 + 65536 + 1000,
        heapBottom := 720896 + 65536 + 1000,
        tableBottom := 10,
        tableTop := 25 } ∧
    720896 + 65536 - 1 + 1 = 720896 + 65536 ∧
    WASM_BYTES_PER_PAGE = 65536 :=
  c6_dynamic_layout_spec 30 65536 720896 1000 10 25 (by norm_num)

/-! ## Claim C8 -/

/-- C8: a `GOT.mem` import resolves through globalOffsetMemoryMap —
when the symbol is recorded with (offset, storedMutable), a fresh
global is created initialised to the offset, with its type forced
mutable whatever the import's requested mutability and whatever the
stored source mutability flag; when the symbol is absent, resolution
fails (the GotMissingData outcome). -/
theorem c8_resolveGOTMem_spec (dataOffsets : List (String × (Int × Bool)))
    (name : String) (importMutable storedMutable : Bool) (off : Int) :
    (flook name dataOffsets = some (off, storedMutable) →
      resolveGOTMem dataOffsets name importMutable =
        some { isMutable := true, value := off }) ∧
    (flook name dataOffsets = none →
      resolveGOTMem dataOffsets name importMutable = none) := by
  constructor
  · intro h
    unfold resolveGOTMem
    rw [h]
  · intro h
    unfold resolveGOTMem
    rw [h]

/-- Witness for C8: an immutable source global requested through an
immutable import type still resolves to a mutable global with the
recorded offset; an absent symbol fails. -/
theorem c8_resolveGOTMem_spec_witness :
    resolveGOTMem [("sym", (100, false))] "sym" false =
      some { isMutable := true, value := 100 } ∧
    resolveGOTMem [] "missingSym" true = none := by
  constructor
  · exact (c8_resolveGOTMem_spec [("sym", (100, false))] "sym" false false
      100).1 (by simp [flook])
  · exact (c8_resolveGOTMem_spec [] "missingSym" true false 0).2 rfl

/-! ## Claim C9 -/

/-- C9: doBindToFunction on an already-bound instance raises
BindingError; on an unbound instance it records bound = true as its
first effect, before creating the compartment, the execution context
and the main instance (the event trace lists the effects in source
order). -/
theorem c9_bind_spec (st : ModState) (user fn : String) :
    (st.isBound = true →
      doBindToFunction st user fn = .error .bindingError) ∧
    (st.isBound = false →
      doBindToFunction st user fn =
        .ok ({ isBound := true, boundUser := user, boundFunction := fn },
          [.setBound, .createCompartment, .createContext,
            .createMainInstance])) := by
  constructor
  · intro h
    simp [doBindToFunction, h]
  · intro h
    simp [doBindToFunction, h]

/-- Witness for C9: binding a bound module fails; binding a fresh
module succeeds with the setBound effect first in the trace. -/
theorem c9_bind_spec_witness :
    doBindToFunction ⟨true, "a", "b"⟩ "u" "f" = .error .bindingError ∧
    doBindToFunction ⟨false, "", ""⟩ "u" "f" =
      .ok ({ isBound := true, boundUser := "u", boundFunction := "f" },
        [.setBound, .createCompartment, .createContext,
          .createMainInstance]) := by
  constructor
  · exact (c9_bind_spec ⟨true, "a", "b"⟩ "u" "f").1 rfl
  · exact (c9_bind_spec ⟨false, "", ""⟩ "u" "f").2 rfl

end FaasmWavm
